import Mathlib

/-!
Verification development for the location-matching engine of the chivocasa
repository (src/match_locations.py).  The Python functions are shallowly
embedded as executable Lean definitions over lists of characters.  Scores,
which are floats in the source, are modelled in exact fixed point: a score
value n stands for the real number n / 10000.  Every constant the engine
uses (1.0, 0.95, 0.9, 0.85, 0.75, 0.01, 0.001) and every product or sum it
forms is an integer multiple of 1/10000, and the one multiplication below
(base score times source weight) always yields a multiple of 1/10000
because both factors are multiples of 1/20, so the encoding is exact; the
acceptance threshold 0.9 is the scaled constant 9000.

Unicode modelling: the engine lowercases and strips combining marks (NFD,
drop category Mn).  The hierarchy data is Spanish place names, so the
character-level table below covers ASCII letters together with the accented
Latin letters that occur in the data; every other character is left
unchanged.  Word characters, as in the regexes of the source, are
alphanumerics and the underscore.
-/

/-- Whitespace as stripped by the str.strip calls of the source. -/
def pyIsSpace (c : Char) : Bool :=
  c == ' ' || c == '\t' || c == '\n' || c == '\r' || c == '\x0b' || c == '\x0c'

/-- Case folding plus accent stripping, the per-character effect of
lower() followed by NFD decomposition with combining marks dropped
(normalize_text, src/match_locations.py lines 29-41). -/
def accentTable : List (Char × Char) :=
  [('A', 'a'), ('B', 'b'), ('C', 'c'), ('D', 'd'), ('E', 'e'), ('F', 'f'),
   ('G', 'g'), ('H', 'h'), ('I', 'i'), ('J', 'j'), ('K', 'k'), ('L', 'l'),
   ('M', 'm'), ('N', 'n'), ('O', 'o'), ('P', 'p'), ('Q', 'q'), ('R', 'r'),
   ('S', 's'), ('T', 't'), ('U', 'u'), ('V', 'v'), ('W', 'w'), ('X', 'x'),
   ('Y', 'y'), ('Z', 'z'),
   ('á', 'a'), ('é', 'e'), ('í', 'i'), ('ó', 'o'), ('ú', 'u'), ('ü', 'u'),
   ('ñ', 'n'), ('à', 'a'), ('è', 'e'), ('ì', 'i'), ('ò', 'o'), ('ù', 'u'),
   ('Á', 'a'), ('É', 'e'), ('Í', 'i'), ('Ó', 'o'), ('Ú', 'u'), ('Ü', 'u'),
   ('Ñ', 'n')]

/-- Normalize one character: lowercase and strip the accent. -/
def pyNormChar (c : Char) : Char :=
  match accentTable.find? (fun p => p.1 == c) with
  | some p => p.2
  | none => c

/-- str.strip: drop whitespace from both ends. -/
def stripEnds (l : List Char) : List Char :=
  (((l.dropWhile pyIsSpace).reverse).dropWhile pyIsSpace).reverse

/-- normalize_text on character lists: lowercase, strip accents, trim. -/
def normalizeList (l : List Char) : List Char :=
  stripEnds (l.map pyNormChar)

/-- normalize_text (src/match_locations.py lines 29-41). -/
def normalize_text (s : String) : String :=
  String.mk (normalizeList s.data)

/-- Shorthand used to build normalized text inputs for the matcher. -/
def nrm (s : String) : List Char := normalizeList s.data

/-- The ordered list of locality name heads removed by
remove_location_prefixes (src/match_locations.py lines 46-53). -/
def prefixList : List (List Char) :=
  [("residencial ").data, ("colonia ").data, ("urbanizacion ").data,
   ("urbanización ").data, ("barrio ").data, ("lotificacion ").data,
   ("lotificación ").data, ("reparto ").data, ("comunidad ").data,
   ("cantón ").data, ("canton ").data, ("caserio ").data,
   ("col. ").data, ("res. ").data, ("urb. ").data, ("bo. ").data,
   ("la ").data, ("el ").data, ("los ").data, ("las ").data]

/-- One pass of the inner for-loop of remove_location_prefixes: find the
first locality head that starts the string and drop it. -/
def stripOnceAux (ps : List (List Char)) (s : List Char) : Option (List Char) :=
  match ps with
  | [] => none
  | p :: rest => if p.isPrefixOf s then some (s.drop p.length) else stripOnceAux rest s

/-- Fuelled version of the while-changed loop of remove_location_prefixes;
every removed head is nonempty, so fuel equal to the length suffices. -/
def stripLoopFuel : Nat → List Char → List Char
  | 0, s => s
  | n + 1, s =>
    match stripOnceAux prefixList s with
    | some t => stripLoopFuel n t
    | none => s

def stripLoop (s : List Char) : List Char := stripLoopFuel s.length s

/-- remove_location_prefixes (src/match_locations.py lines 44-64). -/
def remove_location_prefixes (s : String) : String :=
  String.mk (stripEnds (stripLoop (normalizeList s.data)))

/-- Word characters in the sense of the regexes of the source. -/
def isWordChar (c : Char) : Bool := c.isAlphanum || c == '_'

/-- A word boundary of the regex engine sits at position i of the text iff
exactly one of the characters around the position is a word character
(out of range counts as non-word). -/
def boundaryAt (s : List Char) (i : Nat) : Bool :=
  (if i = 0 then false else isWordChar (s.getD (i - 1) ' ')) !=
    isWordChar (s.getD i ' ')

/-- The pattern occurs literally at position i of the text. -/
def matchesAt (pat s : List Char) (i : Nat) : Bool :=
  (s.drop i).take pat.length == pat

/-- re.search of a word-boundary-delimited escaped literal: the pattern
occurs somewhere in the text with word boundaries on both sides.  For the
empty pattern this degenerates, exactly as in the regex engine, to the
existence of any word boundary in the text. -/
def wordMatch (pat text : List Char) : Bool :=
  (List.range (text.length + 1)).any fun i =>
    matchesAt pat text i && boundaryAt text i && boundaryAt text (i + pat.length)

/-- Plain substring containment, the quick pre-filter of the source
(the in operator of Python; the empty pattern is contained everywhere). -/
def inText (pat text : List Char) : Bool :=
  (List.range (text.length + 1)).any (matchesAt pat text)

/-! ## Data model: the in-memory hierarchy index and the match result -/

/-- One indexed hierarchy node, as built by load_location_groups
(src/match_locations.py lines 123-146): display name, normalized search
name, prefix-stripped name, alternates from the details field, parent id. -/
structure LocInfo where
  id : Nat
  name : List Char
  normalized : List Char
  noPrefixName : List Char
  altNames : List (List Char)
  parentId : Option Nat
deriving DecidableEq, Repr

/-- The four per-level node pools (groups[2..5]); a pool is a list in the
iteration order of the Python dict. -/
structure Groups where
  l2 : List LocInfo
  l3 : List LocInfo
  l4 : List LocInfo
  l5 : List LocInfo
deriving DecidableEq, Repr

/-- groups.get(level, default empty). -/
def Groups.pool (g : Groups) (level : Nat) : List LocInfo :=
  match level with
  | 2 => g.l2
  | 3 => g.l3
  | 4 => g.l4
  | 5 => g.l5
  | _ => []

/-- The four normalized text sources of one listing. -/
structure Texts where
  title : List Char
  location : List Char
  details : List Char
  description : List Char
deriving DecidableEq, Repr

/-- Source iteration order of find_best_match_in_level (Strategy A,
line 271: location first for the tie-breaker). -/
def sourceListA (t : Texts) : List (String × List Char) :=
  [("location", t.location), ("title", t.title),
   ("details", t.details), ("description", t.description)]

/-- Source iteration order of the texts dict built by match_scraped_listings
(lines 645-650), iterated by find_match of Strategy B. -/
def sourceListB (t : Texts) : List (String × List Char) :=
  [("title", t.title), ("location", t.location),
   ("details", t.details), ("description", t.description)]

/-- The structured match record (externalId, handled by the callers, is
omitted: no claim concerns it). -/
structure MatchResult where
  locGroup2Id : Option Nat
  locGroup3Id : Option Nat
  locGroup4Id : Option Nat
  locGroup5Id : Option Nat
  matchLevel : Option Nat
  matchScore : Option Nat
  matchSource : Option String
  matchedText : Option (List Char)
deriving DecidableEq, Repr

/-- The all-null record both strategies start from. -/
def allNullResult : MatchResult :=
  { locGroup2Id := none, locGroup3Id := none, locGroup4Id := none,
    locGroup5Id := none, matchLevel := none, matchScore := none,
    matchSource := none, matchedText := none }

/-- round(x, 2) on a fixed-point score: round to a multiple of 1/100. -/
def round2 (n : Nat) : Nat := (n + 50) / 100 * 100

/-- matched_text[:255] if matched_text else None. -/
def truncOpt (l : List Char) : Option (List Char) :=
  if l = [] then none else some (l.take 255)

/-! ## Strategy A per-level matcher (find_match_in_level, lines 161-223) -/

/-- The multiplicative source weight of find_match_in_level
(lines 209-217); unknown sources are left unweighted as in the source. -/
def srcWeight (source : String) : Nat :=
  if source == "title" then 10000
  else if source == "location" then 9500
  else if source == "details" then 8500
  else if source == "description" then 7500
  else 10000

/-- Base score and matched display text of one candidate against one text in
find_match_in_level: quick substring pre-filter, then word-bounded match of
the normalized name (1.0), the prefix-stripped name (0.95), or an alternate
name (0.9); a zero score means the candidate is skipped. -/
def scoreA (info : LocInfo) (text : List Char) : Nat × List Char :=
  if info.normalized = [] then (0, info.normalized)
  else if !(inText info.normalized text)
      && !(info.altNames.any fun a => !(a = []) && inText a text) then
    (0, info.normalized)
  else if wordMatch info.normalized text then (10000, info.name)
  else if !(info.noPrefixName = []) && wordMatch info.noPrefixName text then
    (9500, info.name)
  else
    match info.altNames.find? (fun a => !(a = []) && wordMatch a text) with
    | some a => (9000, info.name ++ (" (").data ++ a ++ (")").data)
    | none => (0, info.normalized)

/-- The best-so-far update of the loop body of find_match_in_level. -/
def stepA (text : List Char) (source : String)
    (st : Option (Nat × Nat × List Char) × Nat) (info : LocInfo) :
    Option (Nat × Nat × List Char) × Nat :=
  let sc := scoreA info text
  if sc.1 > 0 then
    let s := sc.1 * srcWeight source / 10000
    if s > st.2 then (some (info.id, s, sc.2), s) else st
  else st

/-- find_match_in_level (lines 161-223). -/
def find_match_in_level (text : List Char) (levelData : List LocInfo)
    (source : String) : Option (Nat × Nat × List Char) :=
  if text = [] then none
  else (levelData.foldl (stepA text source) (none, 0)).1

/-! ## Strategy A source loop (find_best_match_in_level, lines 258-292) -/

/-- Body of the source loop of find_best_match_in_level: optional parent
filter, per-level lookup, +0.01 additive boost for the location source,
strict best-so-far comparison. -/
def stepBestA (levelData : List LocInfo) (parentFilter : Option Nat)
    (st : Option (Nat × Nat × List Char × String) × Nat)
    (p : String × List Char) : Option (Nat × Nat × List Char × String) × Nat :=
  if p.2 = [] then st
  else
    let filtered := match parentFilter with
      | some pf => levelData.filter (fun v => v.parentId == some pf)
      | none => levelData
    match find_match_in_level p.2 filtered p.1 with
    | some (locId, score, mt) =>
      let score := if p.1 == "location" then score + 100 else score
      if score > st.2 then (some (locId, score, mt, p.1), score) else st
    | none => st

/-- find_best_match_in_level (lines 258-292). -/
def find_best_match_in_level (texts : Texts) (levelData : List LocInfo)
    (parentFilter : Option Nat) : Option (Nat × Nat × List Char × String) :=
  ((sourceListA texts).foldl (stepBestA levelData parentFilter) (none, 0)).1

/-! ## Scope resolution (get_ids_under_department, lines 311-324 and
855-864; the two inner helpers are line-for-line identical) -/

def idsL4Under (g : Groups) (deptId : Nat) : List Nat :=
  ((g.pool 4).filter (fun i => i.parentId == some deptId)).map (fun i => i.id)

def idsL3Under (g : Groups) (deptId : Nat) : List Nat :=
  let p4 := idsL4Under g deptId
  ((g.pool 3).filter (fun i => match i.parentId with
    | some p => p4.contains p
    | none => false)).map (fun i => i.id)

def idsL2Under (g : Groups) (deptId : Nat) : List Nat :=
  let p3 := idsL3Under g deptId
  ((g.pool 2).filter (fun i => match i.parentId with
    | some p => p3.contains p
    | none => false)).map (fun i => i.id)

def get_ids_under_department (g : Groups) (level deptId : Nat) : List Nat :=
  match level with
  | 4 => idsL4Under g deptId
  | 3 => idsL3Under g deptId
  | 2 => idsL2Under g deptId
  | _ => []

/-! ## Chain resolution (get_parent_chain, lines 226-255; the local copy in
match_listing_with_texts, lines 866-883, is line-for-line identical) -/

/-- The locGroup{2..5}Id dict built by get_parent_chain. -/
structure Chain where
  g2 : Option Nat
  g3 : Option Nat
  g4 : Option Nat
  g5 : Option Nat
deriving DecidableEq, Repr

def emptyChain : Chain := ⟨none, none, none, none⟩

def Chain.set (c : Chain) (level v : Nat) : Chain :=
  if level = 2 then { c with g2 := some v }
  else if level = 3 then { c with g3 := some v }
  else if level = 4 then { c with g4 := some v }
  else if level = 5 then { c with g5 := some v }
  else c

def Chain.get (c : Chain) (level : Nat) : Option Nat :=
  if level = 2 then c.g2
  else if level = 3 then c.g3
  else if level = 4 then c.g4
  else if level = 5 then c.g5
  else none

/-- The while-loop of get_parent_chain: record the current id at the
current level, stop at level 5, else follow the parent link one level up;
a missing node or a falsy (absent or zero) parent id breaks the walk.
Fuel 6 covers every level count the loop can visit. -/
def parentChainAux (g : Groups) : Nat → Nat → Nat → Chain → Chain
  | 0, _, _, acc => acc
  | fuel + 1, cid, lvl, acc =>
    if lvl > 5 then acc
    else
      let acc := acc.set lvl cid
      if lvl = 5 then acc
      else
        match (g.pool lvl).find? (fun i => i.id == cid) with
        | some info =>
          match info.parentId with
          | some p => if p ≠ 0 then parentChainAux g fuel p (lvl + 1) acc else acc
          | none => acc
        | none => acc

/-- get_parent_chain (lines 226-255). -/
def get_parent_chain (locId level : Nat) (g : Groups) : Chain :=
  parentChainAux g 6 locId level emptyChain

/-- result.update(parent_chain): overwrite all four locGroup id fields. -/
def MatchResult.applyChain (r : MatchResult) (c : Chain) : MatchResult :=
  { r with
    locGroup2Id := c.g2
    locGroup3Id := c.g3
    locGroup4Id := c.g4
    locGroup5Id := c.g5 }

/-! ## Strategy A orchestrator (match_listing, lines 295-429) -/

/-- State of the best-lower loop of match_listing: best_lower,
best_lower_level, best_lower_score. -/
def lowerStateA := Option (Nat × Nat × List Char × String) × Nat × Nat

/-- Body of the level loop of match_listing step 2 (lines 355-376):
scoped search under the department, most specific accepted level wins,
same-level higher score wins. -/
def lowerStepA (texts : Texts) (g : Groups) (deptId : Nat)
    (st : lowerStateA) (level : Nat) : lowerStateA :=
  let valid := get_ids_under_department g level deptId
  if valid = [] then st
  else
    let filtered := (g.pool level).filter (fun kv => valid.contains kv.id)
    if filtered = [] then st
    else
      match find_best_match_in_level texts filtered none with
      | some (locId, score, mt, src) =>
        if score ≥ 9000 && level < st.2.1 then
          (some (locId, score, mt, src), level, score)
        else if score > st.2.2 && level == st.2.1 then
          (some (locId, score, mt, src), st.2.1, score)
        else st
      | none => st

/-- The last-resort direct level-2 block of match_listing
(lines 416-429), also reached when a level-3 match is below threshold. -/
def matchListingL2 (texts : Texts) (g : Groups) : Option MatchResult :=
  match find_best_match_in_level texts (g.pool 2) none with
  | some (l2id, l2score, l2text, l2src) =>
    if l2score ≥ 9000 then
      some { (allNullResult.applyChain (get_parent_chain l2id 2 g)) with
             matchLevel := some 2
             matchScore := some (round2 l2score)
             matchSource := some l2src
             matchedText := truncOpt l2text }
    else none
  | none => none

/-- The bottom-up level-3 block of match_listing (lines 392-414). -/
def matchListingL3 (texts : Texts) (g : Groups) : Option MatchResult :=
  match find_best_match_in_level texts (g.pool 3) none with
  | some (l3id, l3score, l3text, l3src) =>
    if l3score ≥ 9000 then
      let r := { (allNullResult.applyChain (get_parent_chain l3id 3 g)) with
                 matchLevel := some 3
                 matchScore := some (round2 l3score)
                 matchSource := some l3src
                 matchedText := truncOpt l3text }
      match find_best_match_in_level texts (g.pool 2) (some l3id) with
      | some (l2id, l2score, l2text, l2src) =>
        if l2score ≥ 9000 then
          some { r with
                 locGroup2Id := some l2id
                 matchLevel := some 2
                 matchScore := some (round2 l2score)
                 matchSource := some l2src
                 matchedText := truncOpt l2text }
        else some r
      | none => some r
    else matchListingL2 texts g
  | none => matchListingL2 texts g

/-- match_listing (lines 295-429): department first, scoped descent, else
bottom-up; returns none (Python None) when nothing is accepted. -/
def match_listing (texts : Texts) (g : Groups) : Option MatchResult :=
  match find_best_match_in_level texts (g.pool 5) none with
  | some (l5id, l5score, l5text, l5src) =>
    let r := { allNullResult with
               locGroup5Id := some l5id
               matchLevel := some 5
               matchScore := some (round2 l5score)
               matchSource := some l5src
               matchedText := truncOpt l5text }
    let st := [2, 3, 4].foldl (lowerStepA texts g l5id) (none, 5, 0)
    match st.1 with
    | some (locId, score, mt, src) =>
      some { (r.applyChain (get_parent_chain locId st.2.1 g)) with
             matchLevel := some st.2.1
             matchScore := some (round2 score)
             matchSource := some src
             matchedText := truncOpt mt }
    | none => some r
  | none => matchListingL3 texts g

/-! ## Strategy B per-level matcher (find_match inside
match_listing_with_texts, lines 793-853) -/

/-- source_priority.get(source, 0) (line 797). -/
def srcPrioNum (source : String) : Nat :=
  if source == "location" then 4
  else if source == "title" then 3
  else if source == "details" then 2
  else if source == "description" then 1
  else 0

/-- Base score and matched text of one candidate against one text in
find_match: word-bounded quick check over all nonempty variants, then the
normalized name (1.0), the prefix-stripped name (0.95), or an alternate
name (0.9).  Mirrors lines 807-844 including the unguarded primary-name
regex, whose pattern is the empty word-bounded literal when the
normalized name is empty. -/
def scoreB (info : LocInfo) (text : List Char) : Nat × List Char :=
  let variants := ([info.normalized, info.noPrefixName] ++ info.altNames).filter
    (fun v => !(v = []))
  if !(variants.any fun v => wordMatch v text) then (0, info.name)
  else if wordMatch info.normalized text then (10000, info.name)
  else if !(info.noPrefixName = []) && wordMatch info.noPrefixName text then
    (9500, info.name ++ (" (via ").data ++ info.noPrefixName ++ (")").data)
  else
    match info.altNames.find? (fun a => !(a = []) && wordMatch a text) with
    | some a => (9000, info.name ++ (" (").data ++ a ++ (")").data)
    | none => (0, info.name)

/-- The parent-filter skip of find_match (line 800): skipped only when the
filter is truthy (present and nonzero) and the parent differs. -/
def pfSkip (parentFilter : Option Nat) (info : LocInfo) : Bool :=
  match parentFilter with
  | some p => if p = 0 then false else !(info.parentId == some p)
  | none => false

/-- Inner source loop body of find_match (lines 811-851): skip empty
texts, score, add the priority tie-breaker, strict best-so-far update
(the stored score stays the base score). -/
def stepSrcB (info : LocInfo)
    (st : Option (Nat × Nat × List Char × String) × Nat)
    (p : String × List Char) : Option (Nat × Nat × List Char × String) × Nat :=
  if p.2 = [] then st
  else
    let sc := scoreB info p.2
    if sc.1 > 0 then
      let adjusted := sc.1 + srcPrioNum p.1 * 10
      if adjusted > st.2 then (some (info.id, sc.1, sc.2, p.1), adjusted) else st
    else st

/-- Outer candidate loop body of find_match. -/
def stepCandB (texts : Texts) (parentFilter : Option Nat)
    (st : Option (Nat × Nat × List Char × String) × Nat) (info : LocInfo) :
    Option (Nat × Nat × List Char × String) × Nat :=
  if pfSkip parentFilter info then st
  else (sourceListB texts).foldl (stepSrcB info) st

/-- find_match of match_listing_with_texts (lines 793-853). -/
def find_match (texts : Texts) (levelData : List LocInfo)
    (parentFilter : Option Nat) : Option (Nat × Nat × List Char × String) :=
  (levelData.foldl (stepCandB texts parentFilter) (none, 0)).1

/-! ## Strategy B orchestrator (match_listing_with_texts, lines 772-969) -/

/-- Body of the level loop of step 2 of match_listing_with_texts
(lines 931-941): scoped search under the department, most specific
accepted level wins (no same-level tie branch here). -/
def lowerStepB (texts : Texts) (g : Groups) (deptId : Nat)
    (st : Option (Nat × Nat × Nat × List Char × String) × Nat) (level : Nat) :
    Option (Nat × Nat × Nat × List Char × String) × Nat :=
  let valid := get_ids_under_department g level deptId
  if valid = [] then st
  else
    let filtered := (g.pool level).filter (fun kv => valid.contains kv.id)
    match find_match texts filtered none with
    | some (locId, score, mt, src) =>
      if score ≥ 9000 && level < st.2 then
        (some (locId, level, score, mt, src), level)
      else st
    | none => st

/-- Last-resort direct level-2 step of match_listing_with_texts
(lines 954-969). -/
def mlwtStepThree (texts : Texts) (g : Groups) : MatchResult :=
  match find_match texts (g.pool 2) none with
  | some (l2id, l2score, l2text, l2src) =>
    if l2score ≥ 9000 then
      { (allNullResult.applyChain (get_parent_chain l2id 2 g)) with
        matchLevel := some 2
        matchScore := some (round2 l2score)
        matchSource := some l2src
        matchedText := truncOpt l2text }
    else allNullResult
  | none => allNullResult

/-- Department step of match_listing_with_texts (lines 916-952): the
level-5 match is recorded without any threshold check, then levels 2, 3, 4
are searched under it. -/
def mlwtStepTwo (texts : Texts) (g : Groups) : MatchResult :=
  match find_match texts (g.pool 5) none with
  | some (l5id, l5score, l5text, l5src) =>
    let r := { allNullResult with
               locGroup5Id := some l5id
               matchLevel := some 5
               matchScore := some (round2 l5score)
               matchSource := some l5src
               matchedText := truncOpt l5text }
    let st := [2, 3, 4].foldl (lowerStepB texts g l5id) (none, 5)
    match st.1 with
    | some (locId, level, score, mt, src) =>
      { (r.applyChain (get_parent_chain locId level g)) with
        matchLevel := some level
        matchScore := some (round2 score)
        matchSource := some src
        matchedText := truncOpt mt }
    | none => r
  | none => mlwtStepThree texts g

/-- match_listing_with_texts (lines 772-969): municipality first, then
department with scoped descent, then direct colonia; always returns a
record (all-null when nothing is accepted). -/
def match_listing_with_texts (texts : Texts) (g : Groups) : MatchResult :=
  match find_match texts (g.pool 3) none with
  | some (l3id, l3score, l3text, l3src) =>
    if l3score ≥ 9000 then
      let r := { (allNullResult.applyChain (get_parent_chain l3id 3 g)) with
                 matchLevel := some 3
                 matchScore := some (round2 l3score)
                 matchSource := some l3src
                 matchedText := truncOpt l3text }
      match find_match texts (g.pool 2) (some l3id) with
      | some (l2id, l2score, l2text, l2src) =>
        if l2score ≥ 9000 then
          { r with
            locGroup2Id := some l2id
            matchLevel := some 2
            matchScore := some (round2 l2score)
            matchSource := some l2src
            matchedText := truncOpt l2text }
        else r
      | none => r
    else mlwtStepTwo texts g
  | none => mlwtStepTwo texts g

/-! ## Concrete inputs used by the scenario theorems -/

/-- Department La Libertad (level 5) of the end-to-end scenario. -/
def dD1 : LocInfo :=
  { id := 501, name := ("La Libertad").data, normalized := nrm ("La Libertad"),
    noPrefixName := (remove_location_prefixes ("La Libertad")).data,
    altNames := [], parentId := none }

/-- Municipality Antiguo Cuscatlán (level 3, parent D1) of the scenario. -/
def mM1 : LocInfo :=
  { id := 301, name := ("Antiguo Cuscatlán").data,
    normalized := nrm ("Antiguo Cuscatlán"),
    noPrefixName := (remove_location_prefixes ("Antiguo Cuscatlán")).data,
    altNames := [], parentId := some 501 }

/-- Colonia San Francisco (level 2, parent M1, one alternate name). -/
def cS1 : LocInfo :=
  { id := 201, name := ("San Francisco").data,
    normalized := nrm ("San Francisco"),
    noPrefixName := (remove_location_prefixes ("San Francisco")).data,
    altNames := [("san francisco plaza").data], parentId := some 301 }

def gC6 : Groups := { l2 := [cS1], l3 := [mM1], l4 := [], l5 := [dD1] }

def tC6 : Texts :=
  { title := nrm ("Casa en San Francisco, Antiguo Cuscatlán"),
    location := [], details := [], description := [] }

/-- What the code actually returns on the end-to-end scenario: the chain
walk relabels the direct level-5 parent of the municipality as level 4. -/
def rC6 : MatchResult :=
  { locGroup2Id := some 201, locGroup3Id := some 301,
    locGroup4Id := some 501, locGroup5Id := none, matchLevel := some 2,
    matchScore := some 10000, matchSource := some "title",
    matchedText := some (("San Francisco").data) }

/-- Department Cuscatlán (level 5), namesake of the municipality. -/
def dCus : LocInfo :=
  { id := 505, name := ("Cuscatlán").data, normalized := nrm ("Cuscatlán"),
    noPrefixName := nrm ("Cuscatlán"), altNames := [], parentId := none }

/-- Municipality Antiguo Cuscatlán without a parent link, for the
word-boundary scenario. -/
def mAC : LocInfo :=
  { id := 301, name := ("Antiguo Cuscatlán").data,
    normalized := nrm ("Antiguo Cuscatlán"),
    noPrefixName := nrm ("Antiguo Cuscatlán"), altNames := [],
    parentId := none }

def gC3 : Groups := { l2 := [], l3 := [mAC], l4 := [], l5 := [dCus] }

def tC3 : Texts :=
  { title := nrm ("casa en antiguo cuscatlan"), location := [],
    details := [], description := [] }

/-- A node with an empty normalized name but a usable alternate name. -/
def eAlt : LocInfo :=
  { id := 7, name := ("Lomas").data, normalized := [], noPrefixName := [],
    altNames := [("santa tecla").data], parentId := none }

def tAlt : Texts :=
  { title := ("venta en santa tecla").data, location := [], details := [],
    description := [] }

/-- Department Santa Ana, mentioned only in the details text. -/
def dSA : LocInfo :=
  { id := 77, name := ("Santa Ana").data, normalized := ("santa ana").data,
    noPrefixName := ("santa ana").data, altNames := [], parentId := none }

def gSA : Groups := { l2 := [], l3 := [], l4 := [], l5 := [dSA] }

def tSA : Texts :=
  { title := [], location := [], details := ("casa en santa ana").data,
    description := [] }

/-- The level-5 record match_listing returns on that input, at score 0.85. -/
def rSA : MatchResult :=
  { locGroup2Id := none, locGroup3Id := none, locGroup4Id := none,
    locGroup5Id := some 77, matchLevel := some 5,
    matchScore := some 8500, matchSource := some "details",
    matchedText := some (("Santa Ana").data) }

/-- Municipality Apopa, mentioned in the location line. -/
def mApo : LocInfo :=
  { id := 11, name := ("Apopa").data, normalized := ("apopa").data,
    noPrefixName := ("apopa").data, altNames := [], parentId := none }

/-- Municipality Ilopango, mentioned in the description. -/
def mIlo : LocInfo :=
  { id := 12, name := ("Ilopango").data, normalized := ("ilopango").data,
    noPrefixName := ("ilopango").data, altNames := [], parentId := none }

def tTie : Texts :=
  { title := [], location := ("apopa").data, details := [],
    description := ("ilopango").data }

def tEmptyT : Texts := { title := [], location := [], details := [], description := [] }

def gEmptyG : Groups := { l2 := [], l3 := [], l4 := [], l5 := [] }

/-- Groups with only the municipality Apopa, for the Strategy A witness. -/
def gApo : Groups := { l2 := [], l3 := [mApo], l4 := [], l5 := [] }

def tApo : Texts :=
  { title := [], location := ("apopa").data, details := [], description := [] }

/-- The level-3 record match_listing returns on that input
(score 1.0 x 0.95 + 0.01 = 0.96, scaled 9600, from the location line). -/
def rApo : MatchResult :=
  { locGroup2Id := none, locGroup3Id := some 11, locGroup4Id := none,
    locGroup5Id := none, matchLevel := some 3, matchScore := some 9600,
    matchSource := some "location", matchedText := some (("Apopa").data) }

/-- Well-formed hierarchy: every node at levels 2-4 carries a truthy
(nonzero) parent id that resolves to an existing node exactly one level
higher. -/
def wfB (g : Groups) : Bool :=
  [2, 3, 4].all fun lvl =>
    (g.pool lvl).all fun info =>
      match info.parentId with
      | some p => !(p = 0) && (g.pool (lvl + 1)).any (fun q => q.id == p)
      | none => false

/-- A well-formed four-level witness hierarchy. -/
def n5W : LocInfo :=
  { id := 51, name := [], normalized := [], noPrefixName := [],
    altNames := [], parentId := none }

def n4W : LocInfo :=
  { id := 41, name := [], normalized := [], noPrefixName := [],
    altNames := [], parentId := some 51 }

def n3W : LocInfo :=
  { id := 31, name := [], normalized := [], noPrefixName := [],
    altNames := [], parentId := some 41 }

def n2W : LocInfo :=
  { id := 21, name := [], normalized := [], noPrefixName := [],
    altNames := [], parentId := some 31 }

def gWF : Groups := { l2 := [n2W], l3 := [n3W], l4 := [n4W], l5 := [n5W] }

/-- What match_listing_with_texts returns in the word-boundary scenario:
the municipality wins at level 3 because level 3 is searched first, not
because of the word-boundary check. -/
def rC3 : MatchResult :=
  { locGroup2Id := none, locGroup3Id := some 301, locGroup4Id := none,
    locGroup5Id := none, matchLevel := some 3, matchScore := some 10000,
    matchSource := some "title",
    matchedText := some (("Antiguo Cuscatlán").data) }

/-! ## Claim C1, counterexample -/

/-- C1 counterexample: with a department whose name occurs only in the
details text, the best candidate anywhere scores 1.0 x 0.85 = 0.85
(scaled 8500), below the documented 0.9 threshold, yet match_listing
accepts it as a level-5 match instead of returning the no-match result
the claim demands. -/
theorem C1_counterexample :
    match_listing tSA gSA = some rSA ∧ rSA.matchScore = some 8500 ∧
      rSA.locGroup5Id = some 77 ∧ (8500 : ℚ) / 10000 < 9 / 10 := by
  refine ⟨by decide, by decide, by decide, by norm_num⟩

/-! ## Claim C2, counterexample -/

/-- C2 counterexample: an exact normalized-name match (base score 1.0,
scaled 10000) found in the location line comes back from
find_match_in_level weighted by 0.95, not by the 1.0 weight the claim
states for the location source. -/
theorem C2_counterexample :
    find_match_in_level (("casa en apopa").data) [mApo] "location" =
        some (11, 9500, ("Apopa").data) ∧
      scoreA mApo (("casa en apopa").data) = (10000, ("Apopa").data) ∧
      srcWeight "location" = 9500 ∧ ((9500 : ℚ) / 10000) ≠ 1 := by
  refine ⟨by decide, by decide, by decide, by norm_num⟩

/-! ## Claim C3, counterexample and amended theorem -/

/-- C3 counterexample: the department node named Cuscatlán (normalized
cuscatlan) does match a text whose only location mention is the phrase
antiguo cuscatlan — the name is a whole word of the phrase, so the
word-boundary check does not reject it — in both per-level matchers. -/
theorem C3_counterexample :
    dCus.normalized = ("cuscatlan").data ∧
      find_match_in_level (nrm ("casa en antiguo cuscatlan")) [dCus] "title" =
        some (505, 10000, ("Cuscatlán").data) ∧
      find_match tC3 [dCus] none =
        some (505, 10000, ("Cuscatlán").data, "title") := by
  refine ⟨by decide, by decide, by decide⟩

/-- C3 amended: word-boundary matching only prevents a name from matching
inside a longer word, not inside a longer multi-word phrase — cuscatlan
does match inside antiguo cuscatlan.  Strategy B still resolves the
listing to the municipality because level 3 is searched first and
returns before the department pool is consulted. -/
theorem C3_theorem :
    wordMatch (("colon").data) (("la colonia escalon").data) = false ∧
      wordMatch (("cuscatlan").data) (("antiguo cuscatlan").data) = true ∧
      match_listing_with_texts tC3 gC3 = rC3 := by
  refine ⟨by decide, by decide, by decide⟩

/-! ## Claim C4, counterexample -/

/-- C4 counterexample: in find_match of Strategy B a node whose normalized
name is empty is returned with score 1.0 (scaled 10000) as soon as one of
its nonempty alternate names occurs in a text: the unguarded primary-name
check degenerates to the empty word-bounded pattern, which matches any
text containing a word character. -/
theorem C4_counterexample :
    eAlt.normalized = [] ∧
      find_match tAlt [eAlt] none = some (7, 10000, ("Lomas").data, "title") := by
  refine ⟨by decide, by decide⟩

/-! ## Claim C6, counterexample and amended theorem -/

/-- C6 counterexample: on the end-to-end scenario hierarchy, whose
municipality points directly at the level-5 department, the returned
record does not carry locGroup5Id = D1 as the claim demands — the chain
walk stores the parent under locGroup4Id and leaves level 5 null. -/
theorem C6_counterexample :
    (match_listing_with_texts tC6 gC6).locGroup5Id = none ∧
      (match_listing_with_texts tC6 gC6).locGroup4Id = some 501 := by
  refine ⟨by decide, by decide⟩

/-- C6 amended: on the scenario input Strategy B matches the municipality
at level 3, upgrades to the colonia at level 2 from the title at score
1.0 (scaled 10000), and the parent-chain walk records the department id
under locGroup4Id (one step above level 3), leaving locGroup5Id null
because the hierarchy skips level 4. -/
theorem C6_theorem : match_listing_with_texts tC6 gC6 = rC6 := by decide

/-! ## Claim C8, counterexample -/

/-- C8 counterexample: match_listing returns the absent value (Python
None), not an all-null MatchResult, when nothing is accepted anywhere. -/
theorem C8_counterexample : match_listing tEmptyT gEmptyG = none := by decide

/-! ## Normalization lemmas (claim C9) -/

/-- No output character of the folding table is itself a table key, checked
by evaluation over the finite table. -/
theorem accentTable_closed :
    accentTable.all
      (fun pr => (accentTable.find? (fun p => p.1 == pr.2)).isNone) = true := by
  decide

/-- The character folding is idempotent. -/
theorem pyNormChar_idem (c : Char) : pyNormChar (pyNormChar c) = pyNormChar c := by
  unfold pyNormChar
  cases h : accentTable.find? (fun p => p.1 == c) with
  | none => rw [h]
  | some pr =>
    have hmem : pr ∈ accentTable := List.mem_of_find?_eq_some h
    have hclosed := List.all_eq_true.mp accentTable_closed pr hmem
    cases h2 : accentTable.find? (fun p => p.1 == pr.2) with
    | none => rfl
    | some q => rw [h2] at hclosed; simp at hclosed

/-- stripEnds is literally a right-drop composed with a left-drop. -/
theorem stripEnds_eq (l : List Char) :
    stripEnds l = List.rdropWhile pyIsSpace (l.dropWhile pyIsSpace) := rfl

/-- The front drop is already stable on a stripped list. -/
theorem dropWhile_stripEnds (l : List Char) :
    (stripEnds l).dropWhile pyIsSpace = stripEnds l := by
  rw [stripEnds_eq]
  rcases h : List.rdropWhile pyIsSpace (l.dropWhile pyIsSpace) with _ | ⟨c, t⟩
  · rfl
  · have hpre := List.rdropWhile_prefix pyIsSpace (l.dropWhile pyIsSpace)
    rw [h] at hpre
    obtain ⟨r, hr⟩ := hpre
    have hd : (l.dropWhile pyIsSpace).head? = some c := by
      rw [← hr]; rfl
    have hne : l.dropWhile pyIsSpace ≠ [] := by
      intro hnil; rw [hnil] at hd; cases hd
    have hnot := List.head_dropWhile_not pyIsSpace l hne
    have hc : (l.dropWhile pyIsSpace).head hne = c := by
      have hh := List.head?_eq_head hne
      rw [hh] at hd
      exact Option.some.inj hd
    rw [List.dropWhile_cons]
    rw [hc] at hnot
    simp [hnot]

/-- stripEnds is idempotent. -/
theorem stripEnds_idem (l : List Char) :
    stripEnds (stripEnds l) = stripEnds l := by
  rw [stripEnds_eq (stripEnds l), dropWhile_stripEnds, stripEnds_eq l,
    List.rdropWhile_idempotent]

/-- Every character of a stripped list is a character of the input. -/
theorem mem_of_mem_stripEnds {c : Char} {l : List Char}
    (h : c ∈ stripEnds l) : c ∈ l := by
  rw [stripEnds_eq] at h
  exact (List.dropWhile_suffix pyIsSpace).subset
    ((List.rdropWhile_prefix pyIsSpace (l.dropWhile pyIsSpace)).subset h)

/-- A list of folded characters is fixed by a further fold. -/
theorem map_pyNormChar_fix (l : List Char)
    (h : ∀ c ∈ l, pyNormChar c = c) : l.map pyNormChar = l := by
  induction l with
  | nil => rfl
  | cons a t ih =>
    simp only [List.map_cons, h a (List.mem_cons_self a t),
      ih (fun c hc => h c (List.mem_cons_of_mem a hc))]

/-- normalizeList is idempotent. -/
theorem normalizeList_idem (l : List Char) :
    normalizeList (normalizeList l) = normalizeList l := by
  unfold normalizeList
  have hfix : (stripEnds (l.map pyNormChar)).map pyNormChar =
      stripEnds (l.map pyNormChar) := by
    refine map_pyNormChar_fix _ (fun c hc => ?_)
    obtain ⟨b, _, rfl⟩ := List.mem_map.mp (mem_of_mem_stripEnds hc)
    exact pyNormChar_idem b
  rw [hfix, stripEnds_idem]

/-- C9: normalize_text is idempotent on every string, and it identifies
accented and unaccented spellings of the same name. -/
theorem C9_theorem :
    (∀ s : String, normalize_text (normalize_text s) = normalize_text s) ∧
      normalize_text ("Antigüo Cuscatlán") = normalize_text ("Antiguo Cuscatlan") := by
  constructor
  · intro s
    show String.mk (normalizeList (normalizeList s.data)) = _
    rw [normalizeList_idem]
    rfl
  · decide

/-! ## Prefix-stripping lemmas (claim C10) -/

/-- Every locality head of the list is nonempty and ends with a space. -/
theorem prefixList_spec :
    prefixList.all (fun p => !(p = List.nil) && (p.getLast? == some ' ')) = true := by
  decide

/-- A successful single strip names the removed head. -/
theorem stripOnceAux_some {ps : List (List Char)} {s t : List Char}
    (h : stripOnceAux ps s = some t) :
    ∃ p ∈ ps, p.isPrefixOf s ∧ t = s.drop p.length := by
  induction ps with
  | nil => cases h
  | cons p rest ih =>
    unfold stripOnceAux at h
    by_cases hp : p.isPrefixOf s
    · rw [if_pos hp] at h
      exact ⟨p, List.mem_cons_self p rest, hp, (Option.some.inj h).symm⟩
    · rw [if_neg hp] at h
      obtain ⟨q, hq, hqpre, hqt⟩ := ih h
      exact ⟨q, List.mem_cons_of_mem p hq, hqpre, hqt⟩

/-- A successful single strip shortens the string. -/
theorem stripOnce_shrink {s t : List Char}
    (h : stripOnceAux prefixList s = some t) : t.length < s.length := by
  obtain ⟨p, hmem, hpre, rfl⟩ := stripOnceAux_some h
  have hspec := List.all_eq_true.mp prefixList_spec p hmem
  have hnn : ¬(p = []) := by
    intro hh
    rw [hh] at hspec
    simp at hspec
  have hle : p.length ≤ s.length :=
    (List.isPrefixOf_iff_prefix.mp hpre).length_le
  have hpos : 0 < p.length := List.length_pos.mpr hnn
  simp only [List.length_drop]
  omega

/-- With enough fuel the loop reaches a fixpoint: no head applies to the
output of stripLoop. -/
theorem stripLoopFuel_fix :
    ∀ (n : Nat) (s : List Char), s.length ≤ n →
      stripOnceAux prefixList (stripLoopFuel n s) = none := by
  intro n
  induction n with
  | zero =>
    intro s hs
    have : s = [] := List.length_eq_zero.mp (Nat.le_zero.mp hs)
    subst this
    decide
  | succ n ih =>
    intro s hs
    unfold stripLoopFuel
    cases h : stripOnceAux prefixList s with
    | none => exact h
    | some t =>
      have := stripOnce_shrink h
      exact ih t (by omega)

/-- The last character of a nonempty drop is the last character. -/
theorem getLast?_drop_of_ne_nil {s : List Char} {k : Nat}
    (h : s.drop k ≠ []) : (s.drop k).getLast? = s.getLast? := by
  obtain ⟨pre, hpre⟩ := (List.drop_suffix k s)
  calc (s.drop k).getLast?
      = (pre ++ s.drop k).getLast? := (List.getLast?_append_of_ne_nil pre h).symm
    _ = s.getLast? := by rw [hpre]

/-- One strip preserves nonemptiness and a non-space last character:
a removed head is a proper prefix because heads end in a space. -/
theorem stripOnce_keepLast {s t : List Char}
    (hlast : ∀ c, s.getLast? = some c → pyIsSpace c = false)
    (h : stripOnceAux prefixList s = some t) :
    t ≠ [] ∧ ∀ c, t.getLast? = some c → pyIsSpace c = false := by
  obtain ⟨p, hmem, hpre, rfl⟩ := stripOnceAux_some h
  have hspec := List.all_eq_true.mp prefixList_spec p hmem
  have hsp : p.getLast? = some ' ' := by
    simp only [Bool.and_eq_true, beq_iff_eq] at hspec
    exact hspec.2
  have hpre' : p <+: s := List.isPrefixOf_iff_prefix.mp hpre
  have hlen : p.length < s.length := by
    rcases Nat.lt_or_ge p.length s.length with hlt | hge
    · exact hlt
    · exfalso
      have heq : p = s := hpre'.eq_of_length (Nat.le_antisymm hge hpre'.length_le).symm
      rw [heq] at hsp
      have := hlast ' ' hsp
      simp [pyIsSpace] at this
  have hdnn : s.drop p.length ≠ [] := by
    intro hh
    have := List.length_eq_zero.mpr hh
    rw [List.length_drop] at this
    omega
  refine ⟨hdnn, fun c hc => ?_⟩
  rw [getLast?_drop_of_ne_nil hdnn] at hc
  exact hlast c hc

/-- The loop preserves nonemptiness and a non-space last character. -/
theorem stripLoopFuel_keepLast :
    ∀ (n : Nat) (s : List Char), s ≠ [] →
      (∀ c, s.getLast? = some c → pyIsSpace c = false) →
      stripLoopFuel n s ≠ [] ∧
        ∀ c, (stripLoopFuel n s).getLast? = some c → pyIsSpace c = false := by
  intro n
  induction n with
  | zero => exact fun s hne hlast => ⟨hne, hlast⟩
  | succ n ih =>
    intro s hne hlast
    unfold stripLoopFuel
    cases h : stripOnceAux prefixList s with
    | none => exact ⟨hne, hlast⟩
    | some t =>
      obtain ⟨htne, htlast⟩ := stripOnce_keepLast hlast h
      exact ih t htne htlast

/-- Stripping the ends keeps a list whose last character is not
whitespace nonempty. -/
theorem stripEnds_ne_nil {s : List Char} (hne : s ≠ [])
    (hlast : ∀ c, s.getLast? = some c → pyIsSpace c = false) :
    stripEnds s ≠ [] := by
  have hlast' : ∀ c, (s.dropWhile pyIsSpace).getLast? = some c →
      pyIsSpace c = false := by
    intro c hc
    have hdnn2 : s.dropWhile pyIsSpace ≠ [] := by
      intro hh; rw [hh] at hc; cases hc
    obtain ⟨pre, hpre⟩ := List.dropWhile_suffix (l := s) pyIsSpace
    apply hlast
    calc s.getLast?
        = (pre ++ s.dropWhile pyIsSpace).getLast? := by rw [hpre]
      _ = (s.dropWhile pyIsSpace).getLast? :=
          List.getLast?_append_of_ne_nil pre hdnn2
      _ = some c := hc
  have hdnn : s.dropWhile pyIsSpace ≠ [] := by
    intro hh
    have hall := List.dropWhile_eq_nil_iff.mp hh
    have hl := List.getLast?_eq_getLast_of_ne_nil hne
    have hmem := List.getLast_mem hne
    have := hlast (s.getLast hne) hl
    rw [hall _ hmem] at this
    cases this
  rw [stripEnds_eq]
  intro hh
  have hall := List.rdropWhile_eq_nil_iff.mp hh
  have hl := List.getLast?_eq_getLast_of_ne_nil hdnn
  have hmem := List.getLast_mem hdnn
  have := hlast' ((s.dropWhile pyIsSpace).getLast hdnn) hl
  rw [hall _ hmem] at this
  cases this

/-- The output of stripEnds never ends in whitespace. -/
theorem stripEnds_last {s : List Char} :
    ∀ c, (stripEnds s).getLast? = some c → pyIsSpace c = false := by
  intro c hc
  have hne : stripEnds s ≠ [] := by
    intro hh; rw [hh] at hc; cases hc
  rw [stripEnds_eq] at hc hne
  have := List.rdropWhile_last_not pyIsSpace (s.dropWhile pyIsSpace) hne
  rw [List.getLast?_eq_getLast_of_ne_nil hne] at hc
  rw [← Option.some.inj hc]
  simpa using this

/-- C10: the compound example strips two heads; the loop always stops at a
fixpoint where no head applies; and a name that does not normalize to the
empty string is never stripped down to the empty string. -/
theorem C10_theorem :
    remove_location_prefixes ("Colonia La Cima 1") = "cima 1" ∧
      (∀ s : List Char, stripOnceAux prefixList (stripLoop s) = none) ∧
      (∀ s : String, normalize_text s ≠ "" → remove_location_prefixes s ≠ "") := by
  refine ⟨by decide, fun s => stripLoopFuel_fix s.length s (Nat.le_refl _), ?_⟩
  intro s hs
  have hdata : normalizeList s.data ≠ [] := by
    intro hh
    apply hs
    show String.mk (normalizeList s.data) = String.mk []
    rw [hh]
  have hlast : ∀ c, (normalizeList s.data).getLast? = some c →
      pyIsSpace c = false := fun c hc => stripEnds_last c hc
  obtain ⟨hne, hl⟩ := stripLoopFuel_keepLast (normalizeList s.data).length
    (normalizeList s.data) hdata hlast
  have := stripEnds_ne_nil hne hl
  intro hh
  apply this
  have := congrArg String.data hh
  exact this

/-- C10 witness: the nonemptiness guarantee applied to a concrete name. -/
theorem C10_witness :
    normalize_text ("Colonia") ≠ "" ∧ remove_location_prefixes ("Colonia") ≠ "" :=
  ⟨by decide, C10_theorem.2.2 ("Colonia") (by decide)⟩

/-! ## Chain-resolution lemmas (claim C7) -/

/-- Reading the level just written. -/
theorem Chain.get_set_self (c : Chain) (l v : Nat) (h2 : 2 ≤ l) (h5 : l ≤ 5) :
    (c.set l v).get l = some v := by
  interval_cases l <;> simp [Chain.set, Chain.get]

/-- Writing one level leaves every other level unchanged. -/
theorem Chain.get_set_other (c : Chain) (l v m : Nat) (h : m ≠ l) :
    (c.set l v).get m = c.get m := by
  unfold Chain.set Chain.get
  split_ifs <;> simp_all

/-- The empty chain reads none everywhere. -/
theorem emptyChain_get (l : Nat) : emptyChain.get l = none := by
  unfold Chain.get emptyChain
  split_ifs <;> rfl

/-- Unpacking the well-formedness check. -/
theorem wf_spec {g : Groups} (h : wfB g = true) :
    ∀ lvl, 2 ≤ lvl → lvl ≤ 4 → ∀ info ∈ g.pool lvl,
      ∃ p, info.parentId = some p ∧ p ≠ 0 ∧ ∃ q ∈ g.pool (lvl + 1), q.id = p := by
  intro lvl h2 h4 info hmem
  have hlmem : lvl ∈ [2, 3, 4] := by
    have : lvl = 2 ∨ lvl = 3 ∨ lvl = 4 := by omega
    rcases this with rfl | rfl | rfl <;> simp
  have hall := List.all_eq_true.mp (List.all_eq_true.mp h lvl hlmem) info hmem
  cases hp : info.parentId with
  | none => rw [hp] at hall; simp at hall
  | some p =>
    rw [hp] at hall
    simp only [Bool.and_eq_true, List.any_eq_true, beq_iff_eq,
      Bool.not_eq_eq_eq_not, Bool.not_true, decide_eq_false_iff_not] at hall
    obtain ⟨hp0, q, hq, hqid⟩ := hall
    exact ⟨p, rfl, hp0, q, hq, hqid⟩

/-- The chain walk populates every level from the start level up to 5 and
touches nothing below, for well-formed hierarchies. -/
theorem parentChainAux_spec {g : Groups} (hwf : wfB g = true) :
    ∀ (fuel cid lvl : Nat) (acc : Chain),
      2 ≤ lvl → lvl ≤ 5 → (∃ info ∈ g.pool lvl, info.id = cid) →
      6 - lvl ≤ fuel →
      (∀ l, lvl ≤ l → l ≤ 5 →
        ((parentChainAux g fuel cid lvl acc).get l).isSome = true) ∧
      (∀ l, l < lvl →
        (parentChainAux g fuel cid lvl acc).get l = acc.get l) := by
  intro fuel
  induction fuel with
  | zero => intro cid lvl acc h2 h5 _ hfuel; omega
  | succ fuel ih =>
    intro cid lvl acc h2 h5 hex hfuel
    have hnotgt : ¬ lvl > 5 := by omega
    unfold parentChainAux
    rw [if_neg hnotgt]
    by_cases h5eq : lvl = 5
    · subst h5eq
      rw [if_pos rfl]
      refine ⟨fun l hl1 hl2 => ?_, fun l hl => ?_⟩
      · have hl5 : l = 5 := by omega
        subst hl5
        rw [Chain.get_set_self acc 5 cid (by omega) (by omega)]
        rfl
      · exact Chain.get_set_other acc 5 cid l (by omega)
    · rw [if_neg h5eq]
      obtain ⟨info, hmem, hid⟩ := hex
      cases hfind : (g.pool lvl).find? (fun i => i.id == cid) with
      | none =>
        exfalso
        have := List.find?_eq_none.mp hfind info hmem
        simp [hid] at this
      | some found =>
        have hfmem : found ∈ g.pool lvl := List.mem_of_find?_eq_some hfind
        obtain ⟨p, hpar, hp0, q, hq, hqid⟩ :=
          wf_spec hwf lvl h2 (by omega) found hfmem
        simp only [hpar]
        rw [if_pos hp0]
        obtain ⟨ih1, ih2⟩ := ih p (lvl + 1) (acc.set lvl cid) (by omega)
          (by omega) ⟨q, hq, hqid⟩ (by omega)
        refine ⟨fun l hl1 hl2 => ?_, fun l hl => ?_⟩
        · rcases Nat.eq_or_lt_of_le hl1 with heq | hlt
          · subst heq
            rw [ih2 lvl (by omega), Chain.get_set_self acc lvl cid (by omega) (by omega)]
            rfl
          · exact ih1 l (by omega) hl2
        · rw [ih2 l (by omega)]
          exact Chain.get_set_other acc lvl cid l (by omega)

/-- C7: for a well-formed hierarchy and a matched node present at level
L between 2 and 5, get_parent_chain fills every level from L up through 5
and leaves every level below L null. -/
theorem C7_theorem (g : Groups) (hwf : wfB g = true) (L : Nat)
    (h2 : 2 ≤ L) (h5 : L ≤ 5) (info : LocInfo) (hmem : info ∈ g.pool L) :
    (∀ l, L ≤ l → l ≤ 5 →
      ((get_parent_chain info.id L g).get l).isSome = true) ∧
    (∀ l, l < L → (get_parent_chain info.id L g).get l = none) := by
  have h := parentChainAux_spec hwf 6 info.id L emptyChain h2 h5
    ⟨info, hmem, rfl⟩ (by omega)
  refine ⟨h.1, fun l hl => ?_⟩
  show (parentChainAux g 6 info.id L emptyChain).get l = none
  rw [h.2 l hl, emptyChain_get]

/-- C7 witness: on the concrete well-formed hierarchy, a level-3 walk
fills levels 3, 4, 5 and leaves level 2 null. -/
theorem C7_witness :
    ((get_parent_chain n3W.id 3 gWF).get 3).isSome = true ∧
      ((get_parent_chain n3W.id 3 gWF).get 4).isSome = true ∧
      ((get_parent_chain n3W.id 3 gWF).get 5).isSome = true ∧
      (get_parent_chain n3W.id 3 gWF).get 2 = none := by
  have h := C7_theorem gWF (by decide) 3 (by omega) (by omega) n3W (by decide)
  exact ⟨h.1 3 (by omega) (by omega), h.1 4 (by omega) (by omega),
    h.1 5 (by omega) (by omega), h.2 2 (by omega)⟩

/-! ## Per-level scoring lemmas, Strategy A (claims C2 and C4) -/

/-- Generic foldl invariant. -/
theorem foldlRec {α β : Type} (P : β → Prop) (f : β → α → β) :
    ∀ (l : List α) (st : β), P st →
      (∀ st2 a, a ∈ l → P st2 → P (f st2 a)) → P (l.foldl f st) := by
  intro l
  induction l with
  | nil => exact fun st h0 _ => h0
  | cons a t ih =>
    intro st h0 hstep
    exact ih (f st a) (hstep st a (List.mem_cons_self a t) h0)
      (fun st2 b hb hP => hstep st2 b (List.mem_cons_of_mem a hb) hP)

/-- The base scores of find_match_in_level take only the values
0, 0.9, 0.95, 1.0 (scaled). -/
theorem scoreA_mem (info : LocInfo) (text : List Char) :
    (scoreA info text).1 = 0 ∨ (scoreA info text).1 = 9000 ∨
      (scoreA info text).1 = 9500 ∨ (scoreA info text).1 = 10000 := by
  unfold scoreA
  repeat' split
  all_goals simp

/-- A candidate with an empty normalized name never scores in
find_match_in_level. -/
theorem scoreA_empty (info : LocInfo) (text : List Char)
    (h : info.normalized = []) : (scoreA info text).1 = 0 := by
  unfold scoreA
  rw [if_pos h]

/-- The loop body of find_match_in_level either keeps the best-so-far or
installs the current candidate with its weighted score. -/
theorem stepA_cases (text : List Char) (source : String)
    (st2 : Option (Nat × Nat × List Char) × Nat) (info : LocInfo) :
    stepA text source st2 info = st2 ∨
      (stepA text source st2 info =
          (some (info.id, (scoreA info text).1 * srcWeight source / 10000,
            (scoreA info text).2),
           (scoreA info text).1 * srcWeight source / 10000) ∧
        0 < (scoreA info text).1 ∧
        st2.2 < (scoreA info text).1 * srcWeight source / 10000) := by
  simp only [stepA]
  split_ifs with h1 h2
  · exact Or.inr ⟨rfl, h1, h2⟩
  · exact Or.inl rfl
  · exact Or.inl rfl

/-- C2 amended: in the single-level lookup the base score (one of 1.0,
0.95, 0.9) is multiplied by the source weight, which is 1.0 for title,
0.95 for the location line (not 1.0 as claimed), 0.85 for details and
0.75 for description; the +0.01 location tie-break boost is added later,
in find_best_match_in_level, not here. -/
theorem C2_theorem :
    (srcWeight "title" = 10000 ∧ srcWeight "location" = 9500 ∧
        srcWeight "details" = 8500 ∧ srcWeight "description" = 7500) ∧
      ∀ (text : List Char) (pool : List LocInfo) (source : String)
        (r : Nat × Nat × List Char),
        find_match_in_level text pool source = some r →
        ∃ b, (b = 9000 ∨ b = 9500 ∨ b = 10000) ∧
          r.2.1 = b * srcWeight source / 10000 := by
  refine ⟨by decide, ?_⟩
  intro text pool source r h
  unfold find_match_in_level at h
  by_cases htext : text = []
  · rw [if_pos htext] at h; cases h
  · rw [if_neg htext] at h
    refine foldlRec
      (fun st : Option (Nat × Nat × List Char) × Nat =>
        ∀ r2, st.1 = some r2 → ∃ b, (b = 9000 ∨ b = 9500 ∨ b = 10000) ∧
          r2.2.1 = b * srcWeight source / 10000)
      (stepA text source) pool (none, 0) (fun r2 hr2 => by cases hr2)
      ?_ r h
    intro st2 info _ hP r2 hr2
    rcases stepA_cases text source st2 info with hcase | ⟨hcase, hpos, -⟩
    · rw [hcase] at hr2; exact hP r2 hr2
    · rw [hcase] at hr2
      cases hr2
      refine ⟨(scoreA info text).1, ?_, rfl⟩
      rcases scoreA_mem info text with h0 | h9 | h95 | h1
      · omega
      · exact Or.inl h9
      · exact Or.inr (Or.inl h95)
      · exact Or.inr (Or.inr h1)

/-- C2 witness: the general weighting law applied to the concrete
location-line lookup of the counterexample. -/
theorem C2_witness :
    ∃ b, (b = 9000 ∨ b = 9500 ∨ b = 10000) ∧
      ((11, 9500, ("Apopa").data) : Nat × Nat × List Char).2.1 =
        b * srcWeight "location" / 10000 :=
  C2_theorem.2 (("casa en apopa").data) [mApo] "location"
    (11, 9500, ("Apopa").data) (by decide)

/-- C4 amended: Strategy A's per-level matcher indeed never returns a
node with an empty normalized name (they are skipped outright), but
Strategy B's find_match does return such a node, at score 1.0, when a
nonempty alternate-name variant occurs in a text. -/
theorem C4_theorem :
    (∀ (text : List Char) (pool : List LocInfo) (source : String)
        (r : Nat × Nat × List Char),
        find_match_in_level text pool source = some r →
        ∃ info ∈ pool, info.id = r.1 ∧ info.normalized ≠ []) ∧
      (eAlt.normalized = [] ∧
        find_match tAlt [eAlt] none =
          some (7, 10000, ("Lomas").data, "title")) := by
  refine ⟨?_, by decide, by decide⟩
  intro text pool source r h
  unfold find_match_in_level at h
  by_cases htext : text = []
  · rw [if_pos htext] at h; cases h
  · rw [if_neg htext] at h
    refine foldlRec
      (fun st : Option (Nat × Nat × List Char) × Nat =>
        ∀ r2, st.1 = some r2 →
          ∃ info ∈ pool, info.id = r2.1 ∧ info.normalized ≠ [])
      (stepA text source) pool (none, 0) (fun r2 hr2 => by cases hr2)
      ?_ r h
    intro st2 info hmem hP r2 hr2
    rcases stepA_cases text source st2 info with hcase | ⟨hcase, hpos, -⟩
    · rw [hcase] at hr2; exact hP r2 hr2
    · rw [hcase] at hr2
      cases hr2
      refine ⟨info, hmem, rfl, fun hnil => ?_⟩
      rw [scoreA_empty info text hnil] at hpos
      exact Nat.lt_irrefl 0 hpos

/-- C4 witness: the Strategy A guarantee applied to the concrete lookup. -/
theorem C4_witness :
    ∃ info ∈ [mApo], info.id =
        ((11, 9500, ("Apopa").data) : Nat × Nat × List Char).1 ∧
      info.normalized ≠ [] :=
  C4_theorem.1 (("casa en apopa").data) [mApo] "location"
    (11, 9500, ("Apopa").data) (by decide)

/-! ## Global per-level matcher lemmas, Strategy B (claims C5, C1, C8) -/

/-- The base scores of find_match take only the values 0, 0.9, 0.95, 1.0
(scaled). -/
theorem scoreB_mem (info : LocInfo) (text : List Char) :
    (scoreB info text).1 = 0 ∨ (scoreB info text).1 = 9000 ∨
      (scoreB info text).1 = 9500 ∨ (scoreB info text).1 = 10000 := by
  simp only [scoreB]
  repeat' split
  all_goals simp

/-- The four sources of the texts dict carry priorities between 1 and 4. -/
theorem srcPrio_bounds {t : Texts} {p : String × List Char}
    (hp : p ∈ sourceListB t) : 1 ≤ srcPrioNum p.1 ∧ srcPrioNum p.1 ≤ 4 := by
  simp only [sourceListB, List.mem_cons, List.not_mem_nil, or_false] at hp
  rcases hp with rfl | rfl | rfl | rfl
  · exact ⟨by show (1 : Nat) ≤ srcPrioNum "title"; decide,
      by show srcPrioNum "title" ≤ 4; decide⟩
  · exact ⟨by show (1 : Nat) ≤ srcPrioNum "location"; decide,
      by show srcPrioNum "location" ≤ 4; decide⟩
  · exact ⟨by show (1 : Nat) ≤ srcPrioNum "details"; decide,
      by show srcPrioNum "details" ≤ 4; decide⟩
  · exact ⟨by show (1 : Nat) ≤ srcPrioNum "description"; decide,
      by show srcPrioNum "description" ≤ 4; decide⟩

/-- The source-loop body either keeps the best-so-far or installs the
current candidate with its base score and priority-adjusted best value. -/
theorem stepSrcB_cases (info : LocInfo)
    (st : Option (Nat × Nat × List Char × String) × Nat)
    (p : String × List Char) :
    stepSrcB info st p = st ∨
      (stepSrcB info st p =
          (some (info.id, (scoreB info p.2).1, (scoreB info p.2).2, p.1),
           (scoreB info p.2).1 + srcPrioNum p.1 * 10) ∧
        0 < (scoreB info p.2).1 ∧ p.2 ≠ [] ∧
        st.2 < (scoreB info p.2).1 + srcPrioNum p.1 * 10) := by
  simp only [stepSrcB]
  split_ifs with h1 h2 h3
  · exact Or.inl rfl
  · exact Or.inr ⟨rfl, h2, h1, h3⟩
  · exact Or.inl rfl
  · exact Or.inl rfl

/-- The best value never decreases through one source step. -/
theorem stepSrcB_le (info : LocInfo)
    (st : Option (Nat × Nat × List Char × String) × Nat)
    (p : String × List Char) : st.2 ≤ (stepSrcB info st p).2 := by
  rcases stepSrcB_cases info st p with h | ⟨h, -, -, hlt⟩
  · rw [h]
  · rw [h]; exact Nat.le_of_lt hlt

/-- The best value never decreases through a fold whose step never
decreases it. -/
theorem foldl_sc_le {α : Type}
    (f : (Option (Nat × Nat × List Char × String) × Nat) → α →
      (Option (Nat × Nat × List Char × String) × Nat))
    (hf : ∀ st a, st.2 ≤ (f st a).2) :
    ∀ (l : List α) (st), st.2 ≤ (l.foldl f st).2 := by
  intro l
  induction l with
  | nil => exact fun st => Nat.le_refl _
  | cons a t ih => exact fun st => Nat.le_trans (hf st a) (ih (f st a))

/-- The best value never decreases through one candidate step. -/
theorem stepCandB_le (texts : Texts) (pf : Option Nat)
    (st : Option (Nat × Nat × List Char × String) × Nat) (info : LocInfo) :
    st.2 ≤ (stepCandB texts pf st info).2 := by
  unfold stepCandB
  split_ifs
  · exact Nat.le_refl _
  · exact foldl_sc_le _ (stepSrcB_le info) (sourceListB texts) st

/-- One source step dominates the priority-adjusted score it examined. -/
theorem stepSrcB_ge_contrib (info : LocInfo)
    (st : Option (Nat × Nat × List Char × String) × Nat)
    {p : String × List Char} (hne : p.2 ≠ [])
    (hpos : 0 < (scoreB info p.2).1) :
    (scoreB info p.2).1 + srcPrioNum p.1 * 10 ≤ (stepSrcB info st p).2 := by
  simp only [stepSrcB]
  rw [if_neg hne, if_pos hpos]
  by_cases hgt : (scoreB info p.2).1 + srcPrioNum p.1 * 10 > st.2
  · rw [if_pos hgt]
  · rw [if_neg hgt]
    omega

/-- After processing one candidate that passes the parent filter, the
best value dominates every positive priority-adjusted score of that
candidate. -/
theorem stepCandB_ge_contrib (texts : Texts) (pf : Option Nat)
    (st : Option (Nat × Nat × List Char × String) × Nat) (info : LocInfo)
    (hskip : pfSkip pf info = false) {p : String × List Char}
    (hp : p ∈ sourceListB texts) (hne : p.2 ≠ [])
    (hpos : 0 < (scoreB info p.2).1) :
    (scoreB info p.2).1 + srcPrioNum p.1 * 10 ≤
      (stepCandB texts pf st info).2 := by
  unfold stepCandB
  rw [hskip]
  simp only [Bool.false_eq_true, if_false]
  obtain ⟨l1, l2, hsplit⟩ := List.append_of_mem hp
  rw [hsplit, List.foldl_append, List.foldl_cons]
  exact Nat.le_trans (stepSrcB_ge_contrib info _ hne hpos)
    (foldl_sc_le _ (stepSrcB_le info) l2 _)

/-- After the whole candidate fold, the best value dominates every
positive priority-adjusted score of every unfiltered candidate. -/
theorem foldCandB_ge_contrib (texts : Texts) (pf : Option Nat)
    (pool : List LocInfo) {info : LocInfo} (hmem : info ∈ pool)
    (hskip : pfSkip pf info = false) {p : String × List Char}
    (hp : p ∈ sourceListB texts) (hne : p.2 ≠ [])
    (hpos : 0 < (scoreB info p.2).1) :
    (scoreB info p.2).1 + srcPrioNum p.1 * 10 ≤
      (pool.foldl (stepCandB texts pf) (none, 0)).2 := by
  obtain ⟨l1, l2, hsplit⟩ := List.append_of_mem hmem
  rw [hsplit, List.foldl_append, List.foldl_cons]
  exact Nat.le_trans
    (stepCandB_ge_contrib texts pf _ info hskip hp hne hpos)
    (foldl_sc_le _ (stepCandB_le texts pf) l2 _)

/-- Invariant of the candidate fold of find_match: a recorded best
carries a base score in {0.9, 0.95, 1.0} (scaled) and the running best
value is that base score plus the priority tie-breaker of its source. -/
theorem findMatchInv (texts : Texts) (pf : Option Nat) (pool : List LocInfo) :
    ∀ x, (pool.foldl (stepCandB texts pf) (none, 0)).1 = some x →
      (x.2.1 = 9000 ∨ x.2.1 = 9500 ∨ x.2.1 = 10000) ∧
        (pool.foldl (stepCandB texts pf) (none, 0)).2 =
          x.2.1 + srcPrioNum x.2.2.2 * 10 ∧
        1 ≤ srcPrioNum x.2.2.2 ∧ srcPrioNum x.2.2.2 ≤ 4 := by
  refine foldlRec
    (fun st : Option (Nat × Nat × List Char × String) × Nat =>
      ∀ x, st.1 = some x →
        (x.2.1 = 9000 ∨ x.2.1 = 9500 ∨ x.2.1 = 10000) ∧
          st.2 = x.2.1 + srcPrioNum x.2.2.2 * 10 ∧
          1 ≤ srcPrioNum x.2.2.2 ∧ srcPrioNum x.2.2.2 ≤ 4)
    (stepCandB texts pf) pool (none, 0) (fun x hx => by cases hx) ?_
  intro st2 info _ hP
  unfold stepCandB
  split_ifs
  · exact hP
  · refine foldlRec
      (fun st : Option (Nat × Nat × List Char × String) × Nat =>
        ∀ x, st.1 = some x →
          (x.2.1 = 9000 ∨ x.2.1 = 9500 ∨ x.2.1 = 10000) ∧
            st.2 = x.2.1 + srcPrioNum x.2.2.2 * 10 ∧
            1 ≤ srcPrioNum x.2.2.2 ∧ srcPrioNum x.2.2.2 ≤ 4)
      (stepSrcB info) (sourceListB texts) st2 hP ?_
    intro st3 p hp hP3
    rcases stepSrcB_cases info st3 p with hcase | ⟨hcase, hpos, -, -⟩
    · rw [hcase]; exact hP3
    · rw [hcase]
      intro x hx
      cases hx
      obtain ⟨hp1, hp4⟩ := srcPrio_bounds hp
      rcases scoreB_mem info p.2 with h0 | h9 | h95 | h1
      · exact absurd hpos (by omega)
      · exact ⟨Or.inl h9, rfl, hp1, hp4⟩
      · exact ⟨Or.inr (Or.inl h95), rfl, hp1, hp4⟩
      · exact ⟨Or.inr (Or.inr h1), rfl, hp1, hp4⟩

/-- The base score a successful find_match returns lies in
{0.9, 0.95, 1.0} (scaled); in particular it always clears the 0.9
acceptance threshold. -/
theorem find_match_score_mem {texts : Texts} {pool : List LocInfo}
    {pf : Option Nat} {x : Nat × Nat × List Char × String}
    (h : find_match texts pool pf = some x) :
    x.2.1 = 9000 ∨ x.2.1 = 9500 ∨ x.2.1 = 10000 :=
  (findMatchInv texts pf pool x h).1

/-- The empty text has no word boundary position. -/
theorem boundaryAt_nil (i : Nat) : boundaryAt [] i = false := by
  have hw : isWordChar ' ' = false := by decide
  unfold boundaryAt
  have hg : ∀ j, ([] : List Char).getD j ' ' = ' ' := fun j => rfl
  rw [hg, hg, hw]
  by_cases h : i = 0
  · rw [if_pos h]; rfl
  · rw [if_neg h]; rfl

/-- Nothing word-matches inside the empty text. -/
theorem wordMatch_nil (pat : List Char) : wordMatch pat [] = false := by
  unfold wordMatch
  simp [boundaryAt_nil]

/-- A candidate scores zero against the empty text in find_match. -/
theorem scoreB_nil (info : LocInfo) : (scoreB info []).1 = 0 := by
  simp only [scoreB]
  have hany : ∀ (vs : List (List Char)),
      vs.any (fun v => wordMatch v []) = false := by
    intro vs
    simp [List.any_eq_false, wordMatch_nil]
  rw [hany]
  simp

/-- C5: the additive priority tie-breaker of Strategy B never lets a
candidate with a strictly lower base score win — the returned base score
dominates the base score of every unfiltered candidate against every
source — and in the concrete 1.0-tie between a location-sourced and a
description-sourced municipality, the location-sourced one is returned
for both orders of the candidate pool. -/
theorem C5_theorem :
    (∀ (texts : Texts) (pool : List LocInfo) (pf : Option Nat)
        (x : Nat × Nat × List Char × String),
        find_match texts pool pf = some x →
        ∀ info ∈ pool, pfSkip pf info = false →
        ∀ p ∈ sourceListB texts, (scoreB info p.2).1 ≤ x.2.1) ∧
      (find_match tTie [mApo, mIlo] none =
          some (11, 10000, ("Apopa").data, "location") ∧
        find_match tTie [mIlo, mApo] none =
          some (11, 10000, ("Apopa").data, "location")) := by
  refine ⟨?_, by decide, by decide⟩
  intro texts pool pf x h info hmem hskip p hp
  obtain ⟨hxmem, hbs, hx1, hx4⟩ := findMatchInv texts pf pool x h
  by_cases hne : p.2 = []
  · rw [hne, scoreB_nil]
    exact Nat.zero_le _
  · rcases scoreB_mem info p.2 with h0 | h9 | h95 | h1
    all_goals (
      first
      | (rw [h0]; exact Nat.zero_le _)
      | (have hpos : 0 < (scoreB info p.2).1 := by omega
         have hc := foldCandB_ge_contrib texts pf pool hmem hskip hp hne hpos
         rw [hbs] at hc
         obtain ⟨hp1, hp4⟩ := srcPrio_bounds hp
         rcases hxmem with hx | hx | hx <;> omega))

/-- C5 witness: the domination law applied to the description-sourced
municipality of the concrete tie scenario. -/
theorem C5_witness :
    (scoreB mIlo tTie.description).1 ≤
      ((11, 10000, ("Apopa").data, "location") :
        Nat × Nat × List Char × String).2.1 :=
  C5_theorem.1 tTie [mApo, mIlo] none _ (by decide) mIlo (by decide)
    (by decide) ("description", tTie.description) (by decide)

/-! ## Orchestrator lemmas (claims C1 and C8) -/

/-- Rounding to two decimals keeps a score at or above the threshold. -/
theorem round2_ge {s : Nat} (h : 9000 ≤ s) : 9000 ≤ round2 s := by
  unfold round2
  omega

/-- Invariant of the best-lower loop of match_listing: any recorded lower
match was accepted at or above the threshold (the same-level tie branch
can only fire above an already accepted score). -/
theorem lowerA_inv (texts : Texts) (g : Groups) (l5id : Nat) :
    ∀ y, (([2, 3, 4].foldl (lowerStepA texts g l5id) (none, 5, 0)).1 = some y) →
      9000 ≤ y.2.1 := by
  have h := foldlRec
    (fun st : lowerStateA =>
      (st.1 = none → st.2.1 = 5) ∧
        ∀ y, st.1 = some y → 9000 ≤ y.2.1 ∧ st.2.2 = y.2.1)
    (lowerStepA texts g l5id) [2, 3, 4] (none, 5, 0)
    ⟨fun _ => rfl, fun y hy => by cases hy⟩ ?_
  · exact fun y hy => (h.2 y hy).1
  · intro st2 level hlev hP
    have hlev3 : level = 2 ∨ level = 3 ∨ level = 4 := by
      simp only [List.mem_cons, List.not_mem_nil, or_false] at hlev
      exact hlev
    simp only [lowerStepA]
    split_ifs with hv hf
    · exact hP
    · exact hP
    · split
      · rename_i locId score mt src heq
        split_ifs with h1 h2
        · simp only [Bool.and_eq_true, decide_eq_true_eq] at h1
          refine ⟨fun hh => hh.elim, fun y2 hy2 => ?_⟩
          cases Option.some.inj hy2
          exact ⟨h1.1, rfl⟩
        · simp only [Bool.and_eq_true, decide_eq_true_eq, beq_iff_eq] at h2
          refine ⟨fun hh => hh.elim, fun y2 hy2 => ?_⟩
          cases Option.some.inj hy2
          cases hst : st2.1 with
          | none =>
            exfalso
            have h5 := hP.1 hst
            rw [h5] at h2
            rcases hlev3 with rfl | rfl | rfl <;> omega
          | some y3 =>
            obtain ⟨h9, hsc⟩ := hP.2 y3 hst
            refine ⟨?_, rfl⟩
            show 9000 ≤ score
            omega
        · exact hP
      · exact hP

/-- The direct level-2 block of match_listing accepts only at or above
the threshold. -/
theorem matchListingL2_spec (texts : Texts) (g : Groups) :
    ∀ r, matchListingL2 texts g = some r →
      ∃ l s, r.matchLevel = some l ∧ r.matchScore = some s ∧ 9000 ≤ s := by
  intro r h
  simp only [matchListingL2] at h
  split at h
  · rename_i l2id l2score l2text l2src heq
    split_ifs at h with hsc
    obtain rfl := Option.some.inj h
    exact ⟨2, round2 l2score, rfl, rfl, round2_ge hsc⟩
  · cases h

/-- The bottom-up level-3 block of match_listing accepts only at or above
the threshold. -/
theorem matchListingL3_spec (texts : Texts) (g : Groups) :
    ∀ r, matchListingL3 texts g = some r →
      ∃ l s, r.matchLevel = some l ∧ r.matchScore = some s ∧ 9000 ≤ s := by
  intro r h
  simp only [matchListingL3] at h
  split at h
  · rename_i l3id l3score l3text l3src heq
    split_ifs at h with hsc
    · split at h
      · rename_i l2id l2score l2text l2src heq2
        split_ifs at h with hsc2
        all_goals first
          | (obtain rfl := Option.some.inj h
             exact ⟨2, round2 l2score, rfl, rfl, round2_ge hsc2⟩)
          | (obtain rfl := Option.some.inj h
             exact ⟨3, round2 l3score, rfl, rfl, round2_ge hsc⟩)
      · obtain rfl := Option.some.inj h
        exact ⟨3, round2 l3score, rfl, rfl, round2_ge hsc⟩
    · exact matchListingL2_spec texts g r h
  · exact matchListingL2_spec texts g r h

/-- Acceptance discipline of match_listing: a result is either a level-5
record (no threshold applied there) or it carries a score at or above the
threshold. -/
theorem matchListingSpec (texts : Texts) (g : Groups) :
    ∀ r, match_listing texts g = some r →
      ∃ l, r.matchLevel = some l ∧
        (l = 5 ∨ ∃ s, r.matchScore = some s ∧ 9000 ≤ s) := by
  intro r h
  simp only [match_listing] at h
  split at h
  · rename_i l5id l5score l5text l5src heq5
    split at h
    · rename_i locId score mt src heq
      have := Option.some.inj h
      subst this
      refine ⟨_, rfl, Or.inr ⟨round2 score, rfl, round2_ge ?_⟩⟩
      exact lowerA_inv texts g l5id _ heq
    · have := Option.some.inj h
      subst this
      exact ⟨5, rfl, Or.inl rfl⟩
  · obtain ⟨l, s, h1, h2, h3⟩ := matchListingL3_spec texts g r h
    exact ⟨l, h1, Or.inr ⟨s, h2, h3⟩⟩

/-- Invariant of the best-lower loop of match_listing_with_texts: any
recorded lower match was accepted at or above the threshold. -/
theorem lowerB_inv (texts : Texts) (g : Groups) (l5id : Nat) :
    ∀ y, (([2, 3, 4].foldl (lowerStepB texts g l5id) (none, 5)).1 = some y) →
      9000 ≤ y.2.2.1 := by
  refine foldlRec
    (fun st : Option (Nat × Nat × Nat × List Char × String) × Nat =>
      ∀ y, st.1 = some y → 9000 ≤ y.2.2.1)
    (lowerStepB texts g l5id) [2, 3, 4] (none, 5)
    (fun y hy => by cases hy) ?_
  intro st2 level _ hP
  simp only [lowerStepB]
  split_ifs with hv
  · exact hP
  · split
    · rename_i locId score mt src heq
      split_ifs with h1
      · simp only [Bool.and_eq_true, decide_eq_true_eq] at h1
        intro y hy
        cases Option.some.inj hy
        exact h1.1
      · exact hP
    · exact hP

/-- The last-resort level-2 step of match_listing_with_texts returns the
all-null record or an accepted scored record. -/
theorem mlwtStepThree_spec (texts : Texts) (g : Groups) :
    mlwtStepThree texts g = allNullResult ∨
      ∃ l s, (mlwtStepThree texts g).matchLevel = some l ∧
        (mlwtStepThree texts g).matchScore = some s ∧ 9000 ≤ s := by
  simp only [mlwtStepThree]
  split
  · rename_i l2id l2score l2text l2src heq
    split_ifs with hsc
    · exact Or.inr ⟨2, round2 l2score, rfl, rfl, round2_ge hsc⟩
    · exact Or.inl rfl
  · exact Or.inl rfl

/-- The department step of match_listing_with_texts returns the all-null
record or a scored record: the level-5 score is unconditionally at least
0.9 because find_match only produces base scores, and any recorded lower
match passed the explicit threshold. -/
theorem mlwtStepTwo_spec (texts : Texts) (g : Groups) :
    mlwtStepTwo texts g = allNullResult ∨
      ∃ l s, (mlwtStepTwo texts g).matchLevel = some l ∧
        (mlwtStepTwo texts g).matchScore = some s ∧ 9000 ≤ s := by
  simp only [mlwtStepTwo]
  split
  · rename_i l5id l5score l5text l5src heq5
    split
    · rename_i locId level score mt src heq
      exact Or.inr ⟨level, round2 score, rfl, rfl,
        round2_ge (lowerB_inv texts g l5id _ heq)⟩
    · have hmem : l5score = 9000 ∨ l5score = 9500 ∨ l5score = 10000 :=
        find_match_score_mem heq5
      exact Or.inr ⟨5, round2 l5score, rfl, rfl, round2_ge (by omega)⟩
  · exact mlwtStepThree_spec texts g

/-- Well-formedness of match_listing_with_texts results: either the
all-null record, or a record with a level and a score at or above the
threshold. -/
theorem mlwtSpec (texts : Texts) (g : Groups) :
    match_listing_with_texts texts g = allNullResult ∨
      ∃ l s, (match_listing_with_texts texts g).matchLevel = some l ∧
        (match_listing_with_texts texts g).matchScore = some s ∧ 9000 ≤ s := by
  simp only [match_listing_with_texts]
  split
  · rename_i l3id l3score l3text l3src heq3
    split_ifs with hsc
    · split
      · rename_i l2id l2score l2text l2src heq2
        split_ifs with hsc2
        · exact Or.inr ⟨2, round2 l2score, rfl, rfl, round2_ge hsc2⟩
        · exact Or.inr ⟨3, round2 l3score, rfl, rfl, round2_ge hsc⟩
      · exact Or.inr ⟨3, round2 l3score, rfl, rfl, round2_ge hsc⟩
    · exact mlwtStepTwo_spec texts g
  · exact mlwtStepTwo_spec texts g

/-- C1 amended: the 0.9 acceptance threshold governs every match at
levels 2, 3 and 4 — in Strategy A any returned result at a level other
than 5 carries a (rounded) score at or above 0.9 — but a level-5
department match is recorded without any threshold check; in Strategy B
every reported score is at or above 0.9 anyway, because its per-level
matcher only produces the base scores 0.9, 0.95 and 1.0. -/
theorem C1_theorem :
    (∀ (texts : Texts) (g : Groups) (r : MatchResult) (l : Nat),
        match_listing texts g = some r → r.matchLevel = some l → l ≠ 5 →
        ∃ s, r.matchScore = some s ∧ 9000 ≤ s) ∧
      ∀ (texts : Texts) (g : Groups) (s : Nat),
        (match_listing_with_texts texts g).matchScore = some s → 9000 ≤ s := by
  constructor
  · intro texts g r l h hl hne
    obtain ⟨l2, hl2, hd⟩ := matchListingSpec texts g r h
    rw [hl] at hl2
    obtain rfl := Option.some.inj hl2
    rcases hd with rfl | hs
    · exact absurd rfl hne
    · exact hs
  · intro texts g s hs
    rcases mlwtSpec texts g with hnull | ⟨l, s2, hl, hsc, hge⟩
    · rw [hnull] at hs; cases hs
    · rw [hsc] at hs
      obtain rfl := Option.some.inj hs
      exact hge

/-- C1 witness: the threshold law applied to a concrete level-3 result of
match_listing (accepted at 0.96 from the location line). -/
theorem C1_witness : ∃ s, rApo.matchScore = some s ∧ 9000 ≤ s :=
  C1_theorem.1 tApo gApo rApo 3 (by decide) (by decide) (by decide)

/-- C8 amended: match_listing_with_texts always returns a well-formed
record — the all-null no-match record, distinguishable from any match,
or a record carrying a match level — while match_listing returns the
absent value (None) instead of an all-null record when nothing is
accepted. -/
theorem C8_theorem :
    (∀ (texts : Texts) (g : Groups),
        match_listing_with_texts texts g = allNullResult ∨
          (match_listing_with_texts texts g).matchLevel.isSome = true) ∧
      ∀ (texts : Texts) (g : Groups),
        match_listing texts g = none ∨
          ∃ r, match_listing texts g = some r ∧ r.matchLevel.isSome = true := by
  constructor
  · intro texts g
    rcases mlwtSpec texts g with h | ⟨l, s, hl, -, -⟩
    · exact Or.inl h
    · right
      rw [hl]
      rfl
  · intro texts g
    cases h : match_listing texts g with
    | none => exact Or.inl rfl
    | some r =>
      right
      obtain ⟨l, hl, -⟩ := matchListingSpec texts g r h
      exact ⟨r, rfl, by rw [hl]; rfl⟩
